import Mathlib

/-!
Verification of the file-embedding semantic-search system (`src/main.rs`,
`src/models.rs`, `src/error.rs`) against its natural-language specification.

The Rust source is shallowly embedded: `f32` vectors become `List ℝ`
(exact-arithmetic model of the floating-point code), the external
collaborators (filesystem, PDF extraction, the embedding model, the
SurrealDB record store) become explicit oracles in an `Env` structure, and
the stateful database becomes an explicit `List FileRecord` threaded
through the operations.  Rust's stable `sort_by` becomes `List.mergeSort`,
which carries the same stability contract.
-/

namespace SemanticSearch

/-! ### Similarity Scorer — embedding of `cosine_similarity` (main.rs:15-41) -/

/-- Embedding of `cosine_similarity(a, b)` from main.rs lines 15-41:
length mismatch returns `0.0`; otherwise dot product and the two magnitudes
are computed, either magnitude equal to zero returns `0.0`, and otherwise
the dot product divided by the product of the magnitudes is returned. -/
noncomputable def cosine_similarity (a b : List ℝ) : ℝ :=
  if a.length ≠ b.length then 0
  else
    let dot_product : ℝ := (List.zipWith (fun x y => x * y) a b).sum
    let magnitude_a : ℝ := Real.sqrt ((a.map fun x => x * x).sum)
    let magnitude_b : ℝ := Real.sqrt ((b.map fun x => x * x).sum)
    if magnitude_a = 0 ∨ magnitude_b = 0 then 0
    else dot_product / (magnitude_a * magnitude_b)

/-- The dot product of two vectors, `a.iter().zip(b.iter()).map(|(x,y)| x*y).sum()`. -/
def dotProduct (a b : List ℝ) : ℝ := (List.zipWith (fun x y => x * y) a b).sum

/-- The sum of squares of a vector's entries, `a.iter().map(|x| x*x).sum()`. -/
def sumSq (a : List ℝ) : ℝ := (a.map fun x => x * x).sum

/-- The Euclidean magnitude of a vector, `a.iter().map(|x| x*x).sum().sqrt()`. -/
noncomputable def magnitude (a : List ℝ) : ℝ := Real.sqrt (sumSq a)

/-! ### Data model — embedding of `src/models.rs` and `src/error.rs` -/

/-- Embedding of `FileRecord` (models.rs): one indexed file.  `f32` embedding
entries become exact reals, `u64` sizes become `Nat`. -/
structure FileRecord where
  path : String
  name : String
  extension : Option String
  mime_type : Option String
  size_bytes : Nat
  content_embedding : List ℝ
  content_preview : String

/-- Embedding of `SearchResult` (models.rs): a matched record with its score. -/
structure SearchResult where
  file : FileRecord
  score : ℝ

/-- Embedding of `FileEmbeddingError` (error.rs); the wrapped foreign error
values (`std::io::Error`, `surrealdb::Error`, `walkdir::Error`) are modelled
as strings. -/
inductive FileEmbeddingError where
  | Io : String → FileEmbeddingError
  | Database : String → FileEmbeddingError
  | Embedding : String → FileEmbeddingError
  | UnsupportedFileType : String → FileEmbeddingError
  | PdfExtraction : String → FileEmbeddingError
  | WalkDir : String → FileEmbeddingError
deriving DecidableEq

/-- Embedding of `SUPPORTED_TEXT_EXTENSIONS` (main.rs:43-62). -/
def SUPPORTED_TEXT_EXTENSIONS : List String :=
  ["txt", "md", "rs", "py", "js", "json", "yaml", "yml", "toml", "css",
   "html", "htm", "xml", "csv", "log", "pdf", "doc", "docx"]

/-! ### External collaborators

The filesystem, the PDF extractor, the embedding model and the MIME guesser
are external to the repository; they are modelled as oracles, exactly at the
interface the Rust code consumes them. -/

/-- Model of Rust's `str::to_lowercase()`: character-wise lowering of the
string's characters (the supported-extension alphabet is ASCII, where the
two coincide), written structurally so that concrete strings evaluate. -/
def strLower (s : String) : String := ⟨s.data.map Char.toLower⟩

/-- Model of Rust's `content.chars().take(n).collect::<String>()`: the first
`n` characters of the string. -/
def strTake (s : String) (n : Nat) : String := ⟨s.data.take n⟩

/-- Model of a `std::path::PathBuf` as observed by the code: its lossy string
form, its `file_name()` (empty string models `unwrap_or_default()` on a
missing name), and its raw `extension().and_then(|e| e.to_str())`. -/
structure FsPath where
  pathStr : String
  fileName : String
  extRaw : Option String
deriving DecidableEq

/-- Model of `std::fs::Metadata` as observed by the code. -/
structure Metadata where
  is_file : Bool
  len : Nat
deriving DecidableEq

/-- The external world consumed by the ingestion pipeline and search engine:
`fs::metadata`, `fs::read`, `fs::read_to_string`,
`pdf_extract::extract_text_from_mem`, the FastEmbed `embed` call (used one
text at a time, returning one vector), and `mime_guess::from_path(..).first()`.
Errors of the foreign calls are modelled as strings. -/
structure Env where
  metadata : FsPath → Except String Metadata
  readBytes : FsPath → Except String (List Nat)
  readToString : FsPath → Except String String
  pdfExtract : List Nat → Except String String
  embed : String → Except String (List ℝ)
  mimeGuess : FsPath → Option String

/-! ### Record Store

The store itself is the external SurrealDB engine; the code pins its
behaviour in `FileEmbeddingSystem::new` (main.rs:82-97) by declaring
`DEFINE INDEX idx_path ON files FIELDS path UNIQUE` on a SCHEMAFUL table.
`create` on the `files` table therefore inserts a fresh record and fails
when a record with the same `path` already exists (spec section 4.2:
`create` fails with a duplicate-key error if `path` already exists). -/

/-- The store's `create` operation under the UNIQUE `idx_path` index:
append the record unless its `path` is already present. -/
def dbCreate (store : List FileRecord) (record : FileRecord) :
    Except String (List FileRecord) :=
  if store.any fun r => r.path == record.path then .error "duplicate path"
  else .ok (store ++ [record])

/-! ### Ingestion Pipeline — embedding of `extract_text_content`,
`index_file` and `index_directory` (main.rs:110-221) -/

/-- Embedding of `extract_text_content` (main.rs:110-129): derive the
lower-cased extension (empty string when absent), dispatch `"pdf"` to the
binary PDF path, other supported extensions to `read_to_string`, and fail
with `UnsupportedFileType` otherwise. -/
def extract_text_content (env : Env) (path : FsPath) :
    Except FileEmbeddingError String :=
  let extension := strLower (path.extRaw.getD "")
  if extension = "pdf" then
    match env.readBytes path with
    | .error e => .error (.Io e)
    | .ok bytes =>
      match env.pdfExtract bytes with
      | .error e => .error (.PdfExtraction e)
      | .ok text => .ok text
  else if SUPPORTED_TEXT_EXTENSIONS.contains extension then
    match env.readToString path with
    | .error e => .error (.Io e)
    | .ok text => .ok text
  else .error (.UnsupportedFileType extension)

/-- Outcome of one `index_file` call: the returned `Result`, the store after
the call, and the trace of `extract_text_content` invocations made. -/
structure IndexOutcome where
  result : Except FileEmbeddingError Unit
  store : List FileRecord
  extractorCalls : List FsPath

/-- Embedding of `index_file` (main.rs:131-209): stat the path, reject
non-files and unsupported extensions before extraction (the error carries
the lower-cased extension, or `"unknown"` when the path has none), then
extract, embed, build the `FileRecord` (preview = first 1000 characters)
and store it. -/
def index_file (env : Env) (path : FsPath) (store : List FileRecord) :
    IndexOutcome :=
  match env.metadata path with
  | .error e => ⟨.error (.Io e), store, []⟩
  | .ok metadata =>
    let extension := path.extRaw.map strLower
    if !metadata.is_file ||
        !((extension.map fun ext => SUPPORTED_TEXT_EXTENSIONS.contains ext).getD false) then
      ⟨.error (.UnsupportedFileType (extension.getD "unknown")), store, []⟩
    else
      match extract_text_content env path with
      | .error e => ⟨.error e, store, [path]⟩
      | .ok content =>
        match env.embed content with
        | .error e => ⟨.error (.Embedding e), store, [path]⟩
        | .ok embedding =>
          let content_preview := strTake content 1000
          let file_record : FileRecord :=
            { path := path.pathStr
              name := path.fileName
              extension := extension
              mime_type := env.mimeGuess path
              size_bytes := metadata.len
              content_embedding := embedding
              content_preview := content_preview }
          match dbCreate store file_record with
          | .error e => ⟨.error (.Database e), store, [path]⟩
          | .ok store' => ⟨.ok (), store', [path]⟩

/-- Model of one `walkdir::DirEntry` as observed by the code: its path and
its `file_type().is_file()`. -/
structure DirEntry where
  path : FsPath
  is_file : Bool

/-- Embedding of `index_directory` (main.rs:211-221) over the entry sequence
produced by the external Walker.  A walker error propagates (the `?` on
`entry`); an `index_file` error is reported and the loop continues. -/
def index_directory (env : Env) (entries : List (Except String DirEntry))
    (store : List FileRecord) : Except FileEmbeddingError Unit × List FileRecord :=
  match entries with
  | [] => (.ok (), store)
  | .error e :: _ => (.error (.WalkDir e), store)
  | .ok entry :: rest =>
    if entry.is_file then
      index_directory env rest (index_file env entry.path store).store
    else
      index_directory env rest store

/-! ### Search Engine — embedding of `hybrid_search` (main.rs:222-254) -/

/-- The comparator passed to `sort_by`:
`|a, b| b.score.partial_cmp(&a.score).unwrap_or(Equal)`, i.e. the results
are ordered so that an earlier element's score is at least a later one's. -/
noncomputable def searchLe (a b : SearchResult) : Bool := decide (b.score ≤ a.score)

/-- The scoring pass of `hybrid_search` (main.rs:231-240): every stored
record, in scan order, paired with its cosine similarity to the query
embedding. -/
noncomputable def scoreRecords (records : List FileRecord)
    (query_embedding : List ℝ) : List SearchResult :=
  records.map fun record =>
    { file := record
      score := cosine_similarity record.content_embedding query_embedding }

/-- Embedding of `hybrid_search` (main.rs:222-254): embed the query
(propagating an embedding failure), score all stored records, stable-sort
descending by score (`sort_by` is Rust's stable sort), truncate to `limit`. -/
noncomputable def hybrid_search (env : Env) (store : List FileRecord)
    (query : String) (limit : Nat) : Except String (List SearchResult) :=
  match env.embed query with
  | .error e => .error e
  | .ok query_embedding =>
    let results := scoreRecords store query_embedding
    let sorted := results.mergeSort searchLe
    .ok (sorted.take limit)

/-! ### Concrete inputs used to instantiate the theorems -/

/-- A path to a supported plain-text file. -/
def demoTxtPath : FsPath := ⟨"/docs/a.txt", "a.txt", some "txt"⟩

/-- A path with the unsupported extension `xyz`. -/
def demoXyzPath : FsPath := ⟨"/docs/b.xyz", "b.xyz", some "xyz"⟩

/-- A path with the unsupported extension `bin`. -/
def demoBinPath : FsPath := ⟨"/docs/c.bin", "c.bin", some "bin"⟩

/-- A path to a regular file with no extension at all. -/
def demoNoExtPath : FsPath := ⟨"/docs/README", "README", none⟩

/-- A deterministic external world: every path stats as a 5-byte regular
file, reads as the text `"hello"`, and every text embeds to the vector
`[1]`. -/
def demoEnv : Env where
  metadata := fun _ => .ok ⟨true, 5⟩
  readBytes := fun _ => .ok []
  readToString := fun _ => .ok "hello"
  pdfExtract := fun _ => .error "bad pdf"
  embed := fun _ => .ok [1]
  mimeGuess := fun _ => some "text/plain"

/-- The record that indexing `demoTxtPath` under `demoEnv` stores. -/
def demoTxtRecord : FileRecord :=
  { path := "/docs/a.txt"
    name := "a.txt"
    extension := some "txt"
    mime_type := some "text/plain"
    size_bytes := 5
    content_embedding := [1]
    content_preview := "hello" }

/-! ### Lemmas about the Similarity Scorer -/

lemma cosine_similarity_eq (a b : List ℝ) :
    cosine_similarity a b =
      if a.length ≠ b.length then 0
      else if magnitude a = 0 ∨ magnitude b = 0 then 0
      else dotProduct a b / (magnitude a * magnitude b) := rfl

lemma sumSq_nonneg (a : List ℝ) : 0 ≤ sumSq a := by
  induction a with
  | nil => simp [sumSq]
  | cons x xs ih =>
    simp only [sumSq, List.map_cons, List.sum_cons] at ih ⊢
    nlinarith [mul_self_nonneg x]

lemma cauchy_schwarz_step (x y d u v : ℝ) (hu : 0 ≤ u) (hv : 0 ≤ v)
    (h : d ^ 2 ≤ u * v) : (x * y + d) ^ 2 ≤ (x * x + u) * (y * y + v) := by
  rcases eq_or_lt_of_le hu with hu0 | hu0
  · have hd : d = 0 := by nlinarith [sq_nonneg d]
    subst hd
    nlinarith [mul_self_nonneg (x * y), mul_self_nonneg x, mul_self_nonneg y]
  · have key : 0 ≤ u * ((x * x + u) * (y * y + v) - (x * y + d) ^ 2) := by
      nlinarith [sq_nonneg (x * d - y * u), mul_nonneg (sq_nonneg x) (sub_nonneg.2 h),
        mul_nonneg hu (sub_nonneg.2 h)]
    nlinarith [key]

/-- Cauchy-Schwarz for the list-level dot product: the square of the dot
product is bounded by the product of the sums of squares. -/
lemma dotProduct_sq_le (a b : List ℝ) : dotProduct a b ^ 2 ≤ sumSq a * sumSq b := by
  induction a generalizing b with
  | nil => simp [dotProduct, sumSq, mul_nonneg (sumSq_nonneg []) (sumSq_nonneg b)]
  | cons x xs ih =>
    cases b with
    | nil =>
      simp only [dotProduct, List.zipWith_nil_right, List.sum_nil]
      simpa using mul_nonneg (sumSq_nonneg (x :: xs)) (sumSq_nonneg [])
    | cons y ys =>
      simp only [dotProduct, sumSq, List.zipWith_cons_cons, List.map_cons,
        List.sum_cons] at ih ⊢
      have h := cauchy_schwarz_step x y ((List.zipWith (fun x y => x * y) xs ys).sum)
        ((xs.map fun x => x * x).sum) ((ys.map fun x => x * x).sum)
        (sumSq_nonneg xs) (sumSq_nonneg ys) (ih ys)
      calc (x * y + (List.zipWith (fun x y => x * y) xs ys).sum) ^ 2
          ≤ (x * x + (xs.map fun x => x * x).sum) * (y * y + (ys.map fun x => x * x).sum) := h

lemma abs_dotProduct_le (a b : List ℝ) : |dotProduct a b| ≤ magnitude a * magnitude b := by
  have h1 : Real.sqrt (dotProduct a b ^ 2) ≤ Real.sqrt (sumSq a * sumSq b) :=
    Real.sqrt_le_sqrt (dotProduct_sq_le a b)
  rwa [Real.sqrt_sq_eq_abs, Real.sqrt_mul (sumSq_nonneg a)] at h1

/-! ### Claim C1 -/

/-- C1: for all vectors `a` and `b`, `cosine_similarity a b` is `0.0` when
the lengths differ; otherwise it is `0.0` when either vector's magnitude is
exactly zero; otherwise it is the dot product divided by the product of the
two magnitudes. -/
theorem cosine_similarity_cases (a b : List ℝ) :
    cosine_similarity a b =
      if a.length ≠ b.length then 0
      else if magnitude a = 0 ∨ magnitude b = 0 then 0
      else dotProduct a b / (magnitude a * magnitude b) :=
  cosine_similarity_eq a b

/-- In the exact-arithmetic model the score always lies in `[-1, 1]`: the
degenerate branches return `0`, and Cauchy-Schwarz bounds the quotient
branch.  This is a fact about the real-valued model only, not about the
program's `f32` semantics: at extreme scale the floating-point code can
overflow the dot product and both magnitudes to infinity (the
zero-magnitude guard is then not taken and the quotient is NaN), and
`sqrt` rounding can push the quotient slightly above `1.0`, so no bound
statement in this embedding speaks for the float program's behaviour
under scale. -/
lemma cosine_similarity_bounded_in_exact_model (a b : List ℝ) :
    -1 ≤ cosine_similarity a b ∧ cosine_similarity a b ≤ 1 := by
  rw [cosine_similarity_eq]
  split
  · norm_num
  · split
    · norm_num
    · rename_i hlen hmag
      push_neg at hmag
      have ha : 0 < magnitude a :=
        lt_of_le_of_ne (Real.sqrt_nonneg _) (Ne.symm hmag.1)
      have hb : 0 < magnitude b :=
        lt_of_le_of_ne (Real.sqrt_nonneg _) (Ne.symm hmag.2)
      have hpos : 0 < magnitude a * magnitude b := mul_pos ha hb
      have habs := abs_le.mp (abs_dotProduct_le a b)
      constructor
      · rw [le_div_iff₀ hpos]
        linarith [habs.1]
      · rw [div_le_one hpos]
        exact habs.2

/-! ### Lemmas about the Search Engine -/

lemma searchLe_trans : ∀ a b c : SearchResult, searchLe a b → searchLe b c → searchLe a c := by
  intro a b c hab hbc
  simp only [searchLe, decide_eq_true_eq] at hab hbc ⊢
  exact le_trans hbc hab

lemma searchLe_total : ∀ a b : SearchResult, searchLe a b || searchLe b a := by
  intro a b
  simp only [searchLe, Bool.or_eq_true, decide_eq_true_eq]
  exact le_total b.score a.score

lemma hybrid_search_ok (env : Env) (store : List FileRecord) (query : String)
    (limit : Nat) (qe : List ℝ) (hq : env.embed query = .ok qe) :
    hybrid_search env store query limit =
      .ok (((scoreRecords store qe).mergeSort searchLe).take limit) := by
  simp [hybrid_search, hq]

/-! ### Claim C2 -/

/-- C2: for every query embedding and limit, `hybrid_search` succeeds with
the stable descending sort of the scored scan, truncated to the limit: the
returned sequence is pairwise non-increasing in score, and any subsequence
of the scan whose scores are all equal survives, in scan order, into the
sorted sequence of which the result is a prefix. -/
theorem hybrid_search_sorted_stable (env : Env) (store : List FileRecord)
    (query : String) (limit : Nat) (qe : List ℝ)
    (hq : env.embed query = .ok qe) :
    ∃ res : List SearchResult,
      hybrid_search env store query limit = .ok res ∧
      res = ((scoreRecords store qe).mergeSort searchLe).take limit ∧
      res.Pairwise (fun a b => b.score ≤ a.score) ∧
      ∀ c : List SearchResult, c.Pairwise (fun a b => a.score = b.score) →
        c.Sublist (scoreRecords store qe) →
        c.Sublist ((scoreRecords store qe).mergeSort searchLe) := by
  refine ⟨((scoreRecords store qe).mergeSort searchLe).take limit,
    hybrid_search_ok env store query limit qe hq, rfl, ?_, ?_⟩
  · have hs : ((scoreRecords store qe).mergeSort searchLe).Pairwise
        (fun a b => b.score ≤ a.score) :=
      (List.sorted_mergeSort searchLe_trans searchLe_total
        (scoreRecords store qe)).imp
        (by intro a b h; simpa [searchLe] using h)
    exact List.Pairwise.sublist (List.take_sublist _ _) hs
  · intro c hc hsub
    refine List.sublist_mergeSort searchLe_trans searchLe_total ?_ hsub
    refine hc.imp ?_
    intro a b h
    simp [searchLe, h.ge]

/-- Instantiation of C2 at a concrete environment and store. -/
theorem hybrid_search_sorted_stable_witness :
    ∃ res : List SearchResult,
      hybrid_search demoEnv [demoTxtRecord] "rust" 3 = .ok res ∧
      res = ((scoreRecords [demoTxtRecord] [1]).mergeSort searchLe).take 3 ∧
      res.Pairwise (fun a b => b.score ≤ a.score) ∧
      ∀ c : List SearchResult, c.Pairwise (fun a b => a.score = b.score) →
        c.Sublist (scoreRecords [demoTxtRecord] [1]) →
        c.Sublist ((scoreRecords [demoTxtRecord] [1]).mergeSort searchLe) :=
  hybrid_search_sorted_stable demoEnv [demoTxtRecord] "rust" 3 [1] rfl

/-! ### Claim C3 -/

/-- C3: for every store of `R` records and every limit `k`, `hybrid_search`
returns exactly `min k R` results: all `R` of them (each scored) when
`R < k`, and the empty sequence when `k = 0`. -/
theorem hybrid_search_length_min (env : Env) (store : List FileRecord)
    (query : String) (limit : Nat) (qe : List ℝ)
    (hq : env.embed query = .ok qe) :
    ∃ res : List SearchResult,
      hybrid_search env store query limit = .ok res ∧
      res.length = min limit store.length ∧
      (limit = 0 → res = []) ∧
      (store.length < limit → res.length = store.length) := by
  have hlen : ((scoreRecords store qe).mergeSort searchLe).length = store.length := by
    rw [(List.mergeSort_perm (scoreRecords store qe) searchLe).length_eq]
    simp [scoreRecords]
  refine ⟨((scoreRecords store qe).mergeSort searchLe).take limit,
    hybrid_search_ok env store query limit qe hq, ?_, ?_, ?_⟩
  · rw [List.length_take, hlen]
  · intro h
    subst h
    simp
  · intro h
    rw [List.length_take, hlen]
    omega

/-- Instantiation of C3 at a concrete environment and store. -/
theorem hybrid_search_length_min_witness :
    ∃ res : List SearchResult,
      hybrid_search demoEnv [demoTxtRecord] "rust" 5 = .ok res ∧
      res.length = min 5 [demoTxtRecord].length ∧
      (5 = 0 → res = []) ∧
      ([demoTxtRecord].length < 5 → res.length = [demoTxtRecord].length) :=
  hybrid_search_length_min demoEnv [demoTxtRecord] "rust" 5 [1] rfl

/-! ### Claim C9 -/

/-- C9: the score `hybrid_search` assigns to a returned record is exactly
the cosine similarity of that record's embedding with the query embedding —
it depends on no other field — and records with equal embeddings receive
equal scores regardless of preview, name, path or other metadata. -/
theorem search_score_ignores_preview (env : Env) (store : List FileRecord)
    (query : String) (limit : Nat) (qe : List ℝ) (res : List SearchResult)
    (hq : env.embed query = .ok qe)
    (hres : hybrid_search env store query limit = .ok res) :
    (∀ sr ∈ res, sr.score = cosine_similarity sr.file.content_embedding qe) ∧
    (∀ r1 r2 : FileRecord, r1.content_embedding = r2.content_embedding →
      cosine_similarity r1.content_embedding qe =
        cosine_similarity r2.content_embedding qe) := by
  constructor
  · intro sr hsr
    have hres' : res = ((scoreRecords store qe).mergeSort searchLe).take limit := by
      have h := hybrid_search_ok env store query limit qe hq
      rw [hres] at h
      exact Except.ok.inj h
    rw [hres'] at hsr
    have h1 : sr ∈ (scoreRecords store qe).mergeSort searchLe :=
      (List.take_sublist _ _).subset hsr
    have h2 : sr ∈ scoreRecords store qe := List.mem_mergeSort.mp h1
    obtain ⟨record, _, hrec⟩ := List.mem_map.mp h2
    rw [← hrec]
  · intro r1 r2 h
    rw [h]

/-- Instantiation of C9 at a concrete environment and store. -/
theorem search_score_ignores_preview_witness :
    (∀ sr ∈ ([] : List SearchResult),
      sr.score = cosine_similarity sr.file.content_embedding [1]) ∧
    (∀ r1 r2 : FileRecord, r1.content_embedding = r2.content_embedding →
      cosine_similarity r1.content_embedding [1] =
        cosine_similarity r2.content_embedding [1]) :=
  search_score_ignores_preview demoEnv [] "rust" 5 [1] [] rfl
    (by simp [hybrid_search, scoreRecords, demoEnv])

/-! ### Lemmas about the Ingestion Pipeline -/

/-- Case analysis of `index_file`: either it succeeds, appending exactly one
record that carries the path's string form and whose path was not yet in the
store, or it fails leaving the store untouched. -/
lemma index_file_spec (env : Env) (path : FsPath) (store : List FileRecord) :
    (∃ r, r.path = path.pathStr ∧
      (store.any fun s => s.path == r.path) = false ∧
      (index_file env path store).result = .ok () ∧
      (index_file env path store).store = store ++ [r]) ∨
    (∃ e, (index_file env path store).result = .error e ∧
      (index_file env path store).store = store) := by
  cases hm : env.metadata path with
  | error e =>
    refine .inr ⟨.Io e, ?_, ?_⟩ <;> simp [index_file, hm]
  | ok md =>
    by_cases hcond : (!md.is_file ||
        !((path.extRaw.map strLower).map fun ext =>
            SUPPORTED_TEXT_EXTENSIONS.contains ext).getD false) = true
    · refine .inr ⟨.UnsupportedFileType
        ((path.extRaw.map strLower).getD "unknown"), ?_, ?_⟩ <;>
        simp only [index_file, hm, if_pos hcond]
    · cases hx : extract_text_content env path with
      | error e =>
        refine .inr ⟨e, ?_, ?_⟩ <;> simp only [index_file, hm, if_neg hcond, hx]
      | ok content =>
        cases he : env.embed content with
        | error e =>
          refine .inr ⟨.Embedding e, ?_, ?_⟩ <;>
            simp only [index_file, hm, if_neg hcond, hx, he]
        | ok emb =>
          by_cases hdup : (store.any fun s => s.path == path.pathStr) = true
          · refine .inr ⟨.Database "duplicate path", ?_, ?_⟩ <;>
              simp only [index_file, hm, if_neg hcond, hx, he, dbCreate, if_pos hdup]
          · refine .inl ⟨⟨path.pathStr, path.fileName,
              path.extRaw.map strLower, env.mimeGuess path, md.len,
              emb, strTake content 1000⟩, rfl, by simpa using hdup, ?_, ?_⟩ <;>
              simp only [index_file, hm, if_neg hcond, hx, he, dbCreate, if_neg hdup]

/-- A path whose lower-cased extension is outside the supported set is
rejected before any extraction: the error carries the lower-cased
extension and the extractor-call trace is empty. -/
lemma index_file_unsupported_ext (env : Env) (path : FsPath)
    (store : List FileRecord) (md : Metadata) (ext : String)
    (hm : env.metadata path = .ok md) (hx : path.extRaw = some ext)
    (hns : strLower ext ∉ SUPPORTED_TEXT_EXTENSIONS) :
    index_file env path store =
      ⟨.error (.UnsupportedFileType (strLower ext)), store, []⟩ := by
  have hns' : SUPPORTED_TEXT_EXTENSIONS.contains (strLower ext) = false := by
    simpa using hns
  simp [index_file, hm, hx, hns']
  intro _ hmem
  exact absurd hmem hns

/-- A regular file with no extension at all is rejected with the literal
placeholder `"unknown"`, before any extraction. -/
lemma index_file_no_ext (env : Env) (path : FsPath) (store : List FileRecord)
    (md : Metadata) (hm : env.metadata path = .ok md) (hx : path.extRaw = none) :
    index_file env path store =
      ⟨.error (.UnsupportedFileType "unknown"), store, []⟩ := by
  simp [index_file, hm, hx]

/-! ### Claim C4 -/

/-- C4: batch ingestion isolates per-file failures: when the walker yields
no traversal errors, `index_directory` returns success no matter which
`index_file` calls fail; concretely, a directory holding one valid `.txt`
file and one unsupported `.xyz` file yields exactly one stored record and
`index_directory` still succeeds. -/
theorem index_directory_failure_isolation :
    (∀ (env : Env) (entries : List (Except String DirEntry)) (store : List FileRecord),
      (∀ e ∈ entries, ∃ d, e = .ok d) →
      (index_directory env entries store).1 = .ok ()) ∧
    index_directory demoEnv [.ok ⟨demoTxtPath, true⟩, .ok ⟨demoXyzPath, true⟩] [] =
      (.ok (), [demoTxtRecord]) := by
  constructor
  · intro env entries
    induction entries with
    | nil => intro store _; rfl
    | cons e rest ih =>
      intro store h
      cases e with
      | error s =>
        obtain ⟨d, hd⟩ := h _ (List.mem_cons_self _ _)
        cases hd
      | ok entry =>
        have hrest := fun x hx => h x (List.mem_cons_of_mem _ hx)
        by_cases hf : entry.is_file = true
        · simpa [index_directory, hf] using
            ih ((index_file env entry.path store).store) hrest
        · simpa [index_directory, hf] using ih store hrest
  · rfl

/-- Instantiation of C4's general conjunct at the two-file scenario. -/
theorem index_directory_failure_isolation_witness :
    (index_directory demoEnv
      [.ok ⟨demoTxtPath, true⟩, .ok ⟨demoXyzPath, true⟩] []).1 = .ok () :=
  index_directory_failure_isolation.1 demoEnv
    [.ok ⟨demoTxtPath, true⟩, .ok ⟨demoXyzPath, true⟩] []
    (by intro e he
        rcases he with _ | ⟨_, h⟩
        · exact ⟨⟨demoTxtPath, true⟩, rfl⟩
        · rcases h with _ | ⟨_, h⟩
          · exact ⟨⟨demoXyzPath, true⟩, rfl⟩
          · cases h)

/-! ### Claim C5 -/

/-- C5: `index_file` creates exactly one record on success and none on any
failure: a successful call appends exactly one record to the store; every
failing call leaves the store unchanged; and a stat-able path with an
unsupported extension always fails with `UnsupportedFileType`, leaving the
store unchanged. -/
theorem index_file_all_or_nothing (env : Env) (path : FsPath)
    (store : List FileRecord) :
    ((index_file env path store).result = .ok () →
      ∃ r, (index_file env path store).store = store ++ [r]) ∧
    (∀ e, (index_file env path store).result = .error e →
      (index_file env path store).store = store) ∧
    (∀ ext, path.extRaw = some ext → strLower ext ∉ SUPPORTED_TEXT_EXTENSIONS →
      ∀ md, env.metadata path = .ok md →
      (index_file env path store).result = .error (.UnsupportedFileType (strLower ext)) ∧
      (index_file env path store).store = store) := by
  refine ⟨?_, ?_, ?_⟩
  · intro hok
    rcases index_file_spec env path store with ⟨r, _, _, _, hst⟩ | ⟨e, herr, _⟩
    · exact ⟨r, hst⟩
    · rw [hok] at herr
      exact Except.noConfusion herr
  · intro e he
    rcases index_file_spec env path store with ⟨r, _, _, hok, _⟩ | ⟨e', _, hst⟩
    · rw [hok] at he
      exact Except.noConfusion he
    · exact hst
  · intro ext hx hns md hm
    rw [index_file_unsupported_ext env path store md ext hm hx hns]
    exact ⟨rfl, rfl⟩

/-- Instantiation of C5 at a concrete unsupported-extension path. -/
theorem index_file_all_or_nothing_witness :
    (index_file demoEnv demoXyzPath []).result =
      .error (.UnsupportedFileType "xyz") ∧
    (index_file demoEnv demoXyzPath []).store = [] :=
  (index_file_all_or_nothing demoEnv demoXyzPath []).2.2 "xyz" rfl
    (by decide) ⟨true, 5⟩ rfl

/-! ### Claim C7 -/

/-- C7: a path whose lower-cased extension is outside the supported set
fails with `UnsupportedFileType` carrying that lower-cased extension, and
the check happens before extraction: the Text Extractor is never invoked
for such a path. -/
theorem index_file_extension_check_first (env : Env) (path : FsPath)
    (store : List FileRecord) (md : Metadata) (ext : String)
    (hm : env.metadata path = .ok md) (hx : path.extRaw = some ext)
    (hns : strLower ext ∉ SUPPORTED_TEXT_EXTENSIONS) :
    (index_file env path store).result = .error (.UnsupportedFileType (strLower ext)) ∧
    (index_file env path store).extractorCalls = [] := by
  rw [index_file_unsupported_ext env path store md ext hm hx hns]
  exact ⟨rfl, rfl⟩

/-- Instantiation of C7 at a concrete unsupported-extension path. -/
theorem index_file_extension_check_first_witness :
    (index_file demoEnv demoBinPath []).result =
      .error (.UnsupportedFileType "bin") ∧
    (index_file demoEnv demoBinPath []).extractorCalls = [] :=
  index_file_extension_check_first demoEnv demoBinPath [] ⟨true, 5⟩ "bin"
    rfl rfl (by decide)

/-! ### Claim C8 -/

/-- C8: `path` is a unique key: `index_file` preserves pairwise-distinct
paths in the store; indexing a path that is already stored always resolves
to a failure with the store unchanged (one consistent policy — never a
second record for the path, never a silent replacement); and when the
pipeline reaches the store (the path stats as a supported file, extracts
and embeds), that failure is the store's explicit duplicate-key error. -/
theorem store_path_unique_key (env : Env) (path : FsPath)
    (store : List FileRecord) :
    (store.Pairwise (fun r s => r.path ≠ s.path) →
      (index_file env path store).store.Pairwise (fun r s => r.path ≠ s.path)) ∧
    ((∃ r ∈ store, r.path = path.pathStr) →
      (index_file env path store).store = store ∧
      ∃ e, (index_file env path store).result = .error e) ∧
    (∀ md ext content emb, env.metadata path = .ok md → md.is_file = true →
      path.extRaw = some ext → strLower ext ∈ SUPPORTED_TEXT_EXTENSIONS →
      extract_text_content env path = .ok content →
      env.embed content = .ok emb →
      (∃ r ∈ store, r.path = path.pathStr) →
      (index_file env path store).result = .error (.Database "duplicate path")) := by
  refine ⟨?_, ?_, ?_⟩
  · intro hp
    rcases index_file_spec env path store with ⟨r, _, hany, _, hst⟩ | ⟨e, _, hst⟩
    · rw [hst, List.pairwise_append]
      refine ⟨hp, List.pairwise_singleton _ _, ?_⟩
      intro a ha b hb
      rw [List.mem_singleton] at hb
      subst hb
      simpa using List.any_eq_false.mp hany a ha
    · rw [hst]
      exact hp
  · rintro ⟨r, hr, hrp⟩
    rcases index_file_spec env path store with ⟨r', hr'path, hany, _, _⟩ | ⟨e, herr, hst⟩
    · exfalso
      have htrue : (store.any fun s => s.path == r'.path) = true :=
        List.any_eq_true.mpr ⟨r, hr, by simp [hrp, hr'path]⟩
      rw [hany] at htrue
      exact Bool.noConfusion htrue
    · exact ⟨hst, e, herr⟩
  · intro md ext content emb hm hfile hx hsup hxc hemb hdup
    have hany : (store.any fun s => s.path == path.pathStr) = true := by
      obtain ⟨r, hr, hrp⟩ := hdup
      exact List.any_eq_true.mpr ⟨r, hr, by simp [hrp]⟩
    have hcond : (!md.is_file ||
        !((path.extRaw.map strLower).map fun e =>
            SUPPORTED_TEXT_EXTENSIONS.contains e).getD false) = false := by
      simp [hfile, hx, hsup]
    simp only [index_file, hm, hcond, Bool.false_eq_true, if_false, hxc, hemb,
      dbCreate, hany, if_true]

/-- Instantiation of C8 at a store already holding the demo record. -/
theorem store_path_unique_key_witness :
    (index_file demoEnv demoTxtPath [demoTxtRecord]).store = [demoTxtRecord] ∧
    ∃ e, (index_file demoEnv demoTxtPath [demoTxtRecord]).result = .error e :=
  (store_path_unique_key demoEnv demoTxtPath [demoTxtRecord]).2.1
    ⟨demoTxtRecord, by simp, rfl⟩

/-! ### Claim C10 -/

/-- C10: a regular file with no extension at all is rejected with
`UnsupportedFileType` carrying the literal placeholder `"unknown"`, not an
empty extension string, and the store is left unchanged. -/
theorem index_file_missing_extension_unknown (env : Env) (path : FsPath)
    (store : List FileRecord) (md : Metadata)
    (hm : env.metadata path = .ok md) (_hfile : md.is_file = true)
    (hx : path.extRaw = none) :
    (index_file env path store).result = .error (.UnsupportedFileType "unknown") ∧
    (index_file env path store).store = store := by
  rw [index_file_no_ext env path store md hm hx]
  exact ⟨rfl, rfl⟩

/-- Instantiation of C10 at a concrete extension-less path. -/
theorem index_file_missing_extension_unknown_witness :
    (index_file demoEnv demoNoExtPath []).result =
      .error (.UnsupportedFileType "unknown") ∧
    (index_file demoEnv demoNoExtPath []).store = [] :=
  index_file_missing_extension_unknown demoEnv demoNoExtPath [] ⟨true, 5⟩
    rfl rfl rfl

end SemanticSearch
